import Mathlib

/-!
Verification development for the weather-mcp resilient outbound-access layer:
the TTL-selection policy, the bounded TTL+LRU cache, the typed error taxonomy
with retryability classification, and the retry/backoff engine with jitter.

Time is modelled in milliseconds as rationals (JavaScript numeric timestamps),
durations likewise.  The dynamic historical-data TTL rule is embedded directly
from the source of getHistoricalDataTTL (src/config/cache.ts, quoted verbatim
in the caching-strategy document).  The cache, retry engine, error taxonomy
and input validation are not present as source files here; they are modelled
from the specification, faithful to its words and to the unit tests.
-/

namespace WeatherMcp

/-- One millisecond, the base unit of JavaScript timestamps. -/
def MS : ℚ := 1

/-- One second in milliseconds. -/
def SECOND : ℚ := 1000 * MS

/-- One minute in milliseconds. -/
def MINUTE : ℚ := 60 * SECOND

/-- One hour in milliseconds. -/
def HOUR : ℚ := 60 * MINUTE

/-- One day in milliseconds. -/
def DAY : ℚ := 24 * HOUR

/-- A cache time-to-live: a finite duration in milliseconds, or the infinite
sentinel (JavaScript Infinity). -/
inductive TTL where
  | finite (ms : ℚ)
  | infinite
deriving DecidableEq, Repr

/-- Embedded from src/config/cache.ts (quoted in the caching-strategy doc):

    export function getHistoricalDataTTL(startDate: string | Date): number \x7b
      const start = typeof startDate === 'string' ? new Date(startDate) : startDate;
      const now = new Date();
      const daysDiff = (now.getTime() - start.getTime()) / DAY;
      if (daysDiff > 1) \x7b return Infinity; \x7d
      else \x7b return 1 * HOUR; \x7d
    \x7d

`now` and `start` are millisecond timestamps. -/
def getHistoricalDataTTL (now start : ℚ) : TTL :=
  if (now - start) / DAY > 1 then TTL.infinite else TTL.finite (1 * HOUR)

theorem DAY_pos : (0 : ℚ) < DAY := by norm_num [DAY, HOUR, MINUTE, SECOND, MS]

theorem getHistoricalDataTTL_eq (now start : ℚ) :
    getHistoricalDataTTL now start =
      if now - start > DAY then TTL.infinite else TTL.finite HOUR := by
  unfold getHistoricalDataTTL
  have h : (now - start) / DAY > 1 ↔ now - start > DAY := by
    rw [gt_iff_lt, lt_div_iff₀ DAY_pos, one_mul]
  rw [one_mul]
  exact if_congr h rfl rfl

end WeatherMcp

namespace WeatherMcp

/-- C1: for every historical record whose reference date is more than one day
before `now`, getHistoricalDataTTL returns the infinite TTL; for every record
whose age is at most one day it returns the short TTL of one hour, regardless
of category-wide defaults. -/
theorem C1_historical_ttl (now refOld refRecent : ℚ)
    (hOld : now - refOld > DAY) (hRecent : now - refRecent ≤ DAY) :
    getHistoricalDataTTL now refOld = TTL.infinite ∧
    getHistoricalDataTTL now refRecent = TTL.finite HOUR := by
  rw [getHistoricalDataTTL_eq, getHistoricalDataTTL_eq]
  constructor
  · rw [if_pos hOld]
  · rw [if_neg (not_lt.mpr hRecent)]

/-- C1 witness: a record dated 10 days before now is cached forever, a record
dated one hour before now is cached for one hour. -/
theorem C1_historical_ttl_witness :
    getHistoricalDataTTL (10 * DAY) 0 = TTL.infinite ∧
    getHistoricalDataTTL (10 * DAY) (10 * DAY - HOUR) = TTL.finite HOUR :=
  C1_historical_ttl (10 * DAY) 0 (10 * DAY - HOUR)
    (by norm_num [DAY, HOUR, MINUTE, SECOND, MS])
    (by norm_num [DAY, HOUR, MINUTE, SECOND, MS])

/-- C7 counterexample: getHistoricalDataTTL receives only the start date of a
historical batch.  A batch from 10 days ago up to now spans the
finalized/recent boundary (its start is more than 1 day old, its end is at
most 1 day old), yet the single TTL the code computes for it is the infinite
one, not the shorter 1-hour TTL. -/
theorem C7_boundary_batch_counterexample :
    (10 * DAY : ℚ) - 0 > DAY ∧ (10 * DAY : ℚ) - 10 * DAY ≤ DAY ∧
    getHistoricalDataTTL (10 * DAY) 0 = TTL.infinite ∧
    getHistoricalDataTTL (10 * DAY) 0 ≠ TTL.finite HOUR := by
  refine ⟨by norm_num [DAY, HOUR, MINUTE, SECOND, MS],
          by norm_num [DAY_pos.le], ?_, ?_⟩
  · rw [getHistoricalDataTTL_eq,
        if_pos (by norm_num [DAY, HOUR, MINUTE, SECOND, MS] :
          (10 * DAY : ℚ) - 0 > DAY)]
  · rw [getHistoricalDataTTL_eq,
        if_pos (by norm_num [DAY, HOUR, MINUTE, SECOND, MS] :
          (10 * DAY : ℚ) - 0 > DAY)]
    intro h
    exact TTL.noConfusion h

/-- C7 amended: the TTL for a historical batch is computed from the batch's
start date alone at storage time; a batch spanning the finalized/recent
boundary (start more than 1 day old, end at most 1 day old) is given, as a
whole, the infinite TTL determined by its start date. -/
theorem C7_batch_ttl_from_start (now start endDate : ℚ)
    (hStartOld : now - start > DAY) (hEndRecent : now - endDate ≤ DAY) :
    getHistoricalDataTTL now start = TTL.infinite := by
  rw [getHistoricalDataTTL_eq, if_pos hStartOld]

/-- C7 amended witness: the 10-days-ago-to-now batch gets infinite TTL. -/
theorem C7_batch_ttl_from_start_witness :
    getHistoricalDataTTL (10 * DAY) 0 = TTL.infinite :=
  C7_batch_ttl_from_start (10 * DAY) 0 (10 * DAY)
    (by norm_num [DAY, HOUR, MINUTE, SECOND, MS])
    (by norm_num [DAY_pos.le])

/-- Absolute expiry of a cache entry: a timestamp, or never (infinite TTL). -/
inductive Expiry where
  | time (t : ℚ)
  | never
deriving DecidableEq, Repr

/-- Modelled from the spec: one stored cache entry (src/utils/cache.ts is not
among the given sources; the entry shape follows the CacheEntry data model of
the spec). -/
structure Entry (V : Type) where
  value : V
  storedAt : ℚ
  expiresAt : Expiry
  lastAccessedAt : ℚ
deriving DecidableEq, Repr

/-- Modelled from the spec: cache state, entries kept in insertion order
together with the statistics counters and the configured maximum size. -/
structure Cache (V : Type) where
  entries : List (String × Entry V)
  maxSize : ℕ
  hits : ℕ
  misses : ℕ
  evictions : ℕ
deriving DecidableEq, Repr

/-- `expiresAt` is `storedAt + ttl`, or the infinite sentinel. -/
def expiryOf (storedAt : ℚ) : TTL → Expiry
  | TTL.finite ms => Expiry.time (storedAt + ms)
  | TTL.infinite => Expiry.never

/-- An entry is expired when `now < expiresAt` fails (spec: a read is a hit
only while `now < expiresAt`). -/
def isExpired (now : ℚ) : Expiry → Bool
  | Expiry.time t => decide (t ≤ now)
  | Expiry.never => false

/-- Look up the entry stored under a key. -/
def findEntry {V : Type} (l : List (String × Entry V)) (k : String) : Option (Entry V) :=
  (l.find? (fun p => p.1 == k)).map Prod.snd

/-- Drop the entry stored under a key. -/
def removeKey {V : Type} (l : List (String × Entry V)) (k : String) :
    List (String × Entry V) :=
  l.filter (fun p => !(p.1 == k))

/-- Refresh the last-access stamp of the entry stored under a key. -/
def touch {V : Type} (l : List (String × Entry V)) (k : String) (now : ℚ) :
    List (String × Entry V) :=
  l.map (fun p => if p.1 == k then (p.1, { p.2 with lastAccessedAt := now }) else p)

/-- Is some entry stored under the key? -/
def hasKey {V : Type} (l : List (String × Entry V)) (k : String) : Bool :=
  l.any (fun p => p.1 == k)

/-- Smallest `lastAccessedAt` among the entries, `none` on an empty list. -/
def minAccess {V : Type} : List (String × Entry V) → Option ℚ
  | [] => none
  | p :: rest =>
    match minAccess rest with
    | none => some p.2.lastAccessedAt
    | some m => some (min p.2.lastAccessedAt m)

/-- Remove the first entry attaining the smallest `lastAccessedAt` (the
least-recently-accessed entry, ties broken by insertion order). -/
def evictLRU {V : Type} : List (String × Entry V) → List (String × Entry V)
  | [] => []
  | p :: rest =>
    match minAccess rest with
    | none => []
    | some m => if p.2.lastAccessedAt ≤ m then rest else p :: evictLRU rest

/-- Modelled from the spec: `get(key)`.  A present, unexpired entry is a hit
and refreshes `lastAccessedAt`; a present but expired entry is removed and
counted as a miss; an absent key is a miss. -/
def Cache.get {V : Type} (c : Cache V) (k : String) (now : ℚ) :
    Option V × Cache V :=
  match findEntry c.entries k with
  | none => (none, { c with misses := c.misses + 1 })
  | some e =>
    if isExpired now e.expiresAt then
      (none, { c with entries := removeKey c.entries k, misses := c.misses + 1 })
    else
      (some e.value, { c with entries := touch c.entries k now, hits := c.hits + 1 })

/-- A freshly stored entry: stamped with the current time for both `storedAt`
and `lastAccessedAt`, expiring at `storedAt + ttl` (or never). -/
def mkEntry {V : Type} (v : V) (ttl : TTL) (now : ℚ) : Entry V :=
  { value := v, storedAt := now, expiresAt := expiryOf now ttl, lastAccessedAt := now }

/-- Modelled from the spec: `put(key, value, ttl)`.  Overwrites a present key
in place; otherwise, if inserting would exceed the maximum entry count, first
evicts the least-recently-accessed entry and counts the eviction. -/
def Cache.put {V : Type} (c : Cache V) (k : String) (v : V) (ttl : TTL) (now : ℚ) :
    Cache V :=
  if hasKey c.entries k then
    { c with entries :=
        c.entries.map (fun p => if p.1 == k then (k, mkEntry v ttl now) else p) }
  else if c.maxSize ≤ c.entries.length then
    { c with entries := evictLRU c.entries ++ [(k, mkEntry v ttl now)],
             evictions := c.evictions + 1 }
  else
    { c with entries := c.entries ++ [(k, mkEntry v ttl now)] }

/-- Modelled from the spec: `clear()` removes all entries and does not reset
the statistics counters. -/
def Cache.clear {V : Type} (c : Cache V) : Cache V :=
  { c with entries := [] }

/-- The arguments of one `put` call. -/
structure PutOp (V : Type) where
  key : String
  value : V
  ttl : TTL
  now : ℚ
deriving DecidableEq, Repr

/-- Run a sequence of `put` calls left to right. -/
def applyPuts {V : Type} (c : Cache V) : List (PutOp V) → Cache V
  | [] => c
  | op :: ops => applyPuts (c.put op.key op.value op.ttl op.now) ops

theorem minAccess_eq_none {V : Type} (l : List (String × Entry V)) :
    minAccess l = none ↔ l = [] := by
  cases l with
  | nil => simp [minAccess]
  | cons p rest =>
    simp only [minAccess]
    cases h : minAccess rest <;> simp

theorem minAccess_le_mem {V : Type} (l : List (String × Entry V)) (m : ℚ)
    (h : minAccess l = some m) :
    ∀ q ∈ l, m ≤ q.2.lastAccessedAt := by
  induction l generalizing m with
  | nil => simp [minAccess] at h
  | cons p rest ih =>
    intro q hq
    cases hr : minAccess rest with
    | none =>
      have hrest : rest = [] := (minAccess_eq_none rest).mp hr
      subst hrest
      simp only [minAccess] at h
      rcases List.mem_cons.mp hq with hq1 | hq1
      · subst hq1
        exact (Option.some_injective _ h).ge
      · simp at hq1
    | some m2 =>
      simp only [minAccess, hr] at h
      have hm : m = min p.2.lastAccessedAt m2 := (Option.some_injective _ h).symm
      rcases List.mem_cons.mp hq with hq1 | hq1
      · subst hq1
        exact hm.le.trans (min_le_left _ _)
      · exact (hm.le.trans (min_le_right _ _)).trans (ih m2 hr q hq1)

theorem minAccess_mem {V : Type} (l : List (String × Entry V)) (m : ℚ)
    (h : minAccess l = some m) :
    ∃ q ∈ l, q.2.lastAccessedAt = m := by
  induction l generalizing m with
  | nil => simp [minAccess] at h
  | cons p rest ih =>
    cases hr : minAccess rest with
    | none =>
      simp only [minAccess, hr] at h
      exact ⟨p, List.mem_cons_self _ _, (Option.some_injective _ h)⟩
    | some m2 =>
      simp only [minAccess, hr] at h
      have hm : min p.2.lastAccessedAt m2 = m := Option.some_injective _ h
      by_cases hpm : p.2.lastAccessedAt ≤ m2
      · exact ⟨p, List.mem_cons_self _ _, by rw [← hm, min_eq_left hpm]⟩
      · obtain ⟨q, hq, hqm⟩ := ih m2 hr
        exact ⟨q, List.mem_cons_of_mem _ hq,
          by rw [hqm, ← hm, min_eq_right (le_of_not_le hpm)]⟩

/-- evictLRU removes exactly one entry: one with the smallest
`lastAccessedAt`, and among ties the earliest-inserted (leftmost) one — every
entry before the evicted one has a strictly larger `lastAccessedAt`. -/
theorem evictLRU_spec {V : Type} (p : String × Entry V)
    (rest : List (String × Entry V)) :
    ∃ pre e post,
      p :: rest = pre ++ e :: post ∧
      evictLRU (p :: rest) = pre ++ post ∧
      (∀ q ∈ p :: rest, e.2.lastAccessedAt ≤ q.2.lastAccessedAt) ∧
      (∀ q ∈ pre, e.2.lastAccessedAt < q.2.lastAccessedAt) := by
  induction rest generalizing p with
  | nil =>
    refine ⟨[], p, [], rfl, ?_, ?_, by simp⟩
    · simp [evictLRU, minAccess]
    · intro q hq
      rcases List.mem_cons.mp hq with hq1 | hq1
      · subst hq1; exact le_refl _
      · simp at hq1
  | cons p2 rest2 ih =>
    cases hr : minAccess (p2 :: rest2) with
    | none => simp [minAccess_eq_none] at hr
    | some m =>
      by_cases hle : p.2.lastAccessedAt ≤ m
      · refine ⟨[], p, p2 :: rest2, rfl, ?_, ?_, by simp⟩
        · simp [evictLRU, hr, hle]
        · intro q hq
          rcases List.mem_cons.mp hq with hq1 | hq1
          · subst hq1; exact le_refl _
          · exact hle.trans (minAccess_le_mem _ m hr q hq1)
      · obtain ⟨pre, e, post, hsplit, hev, hmin, hstrict⟩ := ih p2
        obtain ⟨q0, hq0, hq0m⟩ := minAccess_mem _ m hr
        have hem : e.2.lastAccessedAt ≤ m := hq0m ▸ hmin q0 hq0
        have hpe : e.2.lastAccessedAt < p.2.lastAccessedAt :=
          lt_of_le_of_lt hem (lt_of_not_le hle)
        refine ⟨p :: pre, e, post, by rw [List.cons_append, ← hsplit], ?_, ?_, ?_⟩
        · have : evictLRU (p :: p2 :: rest2) = p :: evictLRU (p2 :: rest2) := by
            simp [evictLRU, hr, hle]
          rw [this, hev, List.cons_append]
        · intro q hq
          rcases List.mem_cons.mp hq with hq1 | hq1
          · subst hq1; exact hpe.le
          · exact hmin q hq1
        · intro q hq
          rcases List.mem_cons.mp hq with hq1 | hq1
          · subst hq1; exact hpe
          · exact hstrict q hq1

theorem put_maxSize {V : Type} (c : Cache V) (k : String) (v : V) (ttl : TTL) (now : ℚ) :
    (c.put k v ttl now).maxSize = c.maxSize := by
  unfold Cache.put
  split_ifs <;> rfl

theorem put_length_le {V : Type} (c : Cache V) (k : String) (v : V) (ttl : TTL) (now : ℚ)
    (hmax : 1 ≤ c.maxSize) (hlen : c.entries.length ≤ c.maxSize) :
    (c.put k v ttl now).entries.length ≤ c.maxSize := by
  unfold Cache.put
  split_ifs with h1 h2
  · simpa using hlen
  · cases hent : c.entries with
    | nil =>
      rw [hent] at h2
      simp at h2
      omega
    | cons p rest =>
      obtain ⟨pre, e, post, hsplit, hev, -, -⟩ := evictLRU_spec p rest
      have hlength : (evictLRU (p :: rest)).length + 1 = (p :: rest).length := by
        rw [hev, hsplit]
        simp only [List.length_append, List.length_cons]
        omega
      simp only [hent, List.length_append, List.length_singleton]
      rw [hlength]
      rw [hent] at hlen
      exact hlen
  · have : c.entries.length < c.maxSize := lt_of_not_le h2
    simpa using this

theorem applyPuts_length_le {V : Type} (ops : List (PutOp V)) (c : Cache V)
    (hmax : 1 ≤ c.maxSize) (hlen : c.entries.length ≤ c.maxSize) :
    (applyPuts c ops).entries.length ≤ c.maxSize := by
  induction ops generalizing c with
  | nil => exact hlen
  | cons op ops ih =>
    show (applyPuts (c.put op.key op.value op.ttl op.now) ops).entries.length ≤ c.maxSize
    have hm := put_maxSize c op.key op.value op.ttl op.now
    have := ih (c.put op.key op.value op.ttl op.now) (hm ▸ hmax)
      (hm ▸ put_length_le c op.key op.value op.ttl op.now hmax hlen)
    rwa [hm] at this

theorem put_evict_case {V : Type} (c : Cache V) (k : String) (v : V) (ttl : TTL) (now : ℚ)
    (hnew : hasKey c.entries k = false) (hge : c.maxSize ≤ c.entries.length) :
    c.put k v ttl now =
      { c with entries := evictLRU c.entries ++ [(k, mkEntry v ttl now)],
               evictions := c.evictions + 1 } := by
  unfold Cache.put
  rw [if_neg (by simp [hnew]), if_pos hge]

end WeatherMcp

namespace WeatherMcp

/-- C2: after any sequence of `put` calls the cache never exceeds the
configured maximum entry count, and when an insert of a new key hits the
capacity bound the eviction counter is incremented and the evicted entry is
one with the oldest `lastAccessedAt`, ties broken by insertion order (every
earlier-inserted entry keeps a strictly larger `lastAccessedAt`). -/
theorem C2_capacity_and_lru {V : Type} (c : Cache V) (ops : List (PutOp V))
    (k : String) (v : V) (ttl : TTL) (now : ℚ)
    (hmax : 1 ≤ c.maxSize) (hlen : c.entries.length ≤ c.maxSize)
    (hnew : hasKey c.entries k = false) (hfull : c.entries.length = c.maxSize) :
    (applyPuts c ops).entries.length ≤ c.maxSize ∧
    (c.put k v ttl now).evictions = c.evictions + 1 ∧
    ∃ pre e post,
      c.entries = pre ++ e :: post ∧
      (c.put k v ttl now).entries = (pre ++ post) ++ [(k, mkEntry v ttl now)] ∧
      (∀ q ∈ c.entries, e.2.lastAccessedAt ≤ q.2.lastAccessedAt) ∧
      (∀ q ∈ pre, e.2.lastAccessedAt < q.2.lastAccessedAt) := by
  have hput := put_evict_case c k v ttl now hnew hfull.ge
  refine ⟨applyPuts_length_le ops c hmax hlen, by rw [hput], ?_⟩
  cases hent : c.entries with
  | nil =>
    rw [hent] at hfull
    simp at hfull
    omega
  | cons p rest =>
    obtain ⟨pre, e, post, hsplit, hev, hmin, hstrict⟩ := evictLRU_spec p rest
    refine ⟨pre, e, post, hsplit, ?_, hmin, hstrict⟩
    rw [hput]
    show evictLRU c.entries ++ [(k, mkEntry v ttl now)] = _
    rw [hent, hev]

/-- A concrete two-entry cache at capacity 2: key "b" was accessed least
recently. -/
def cacheW : Cache ℕ :=
  { entries :=
      [("a", { value := 1, storedAt := 0, expiresAt := Expiry.never, lastAccessedAt := 5 }),
       ("b", { value := 2, storedAt := 0, expiresAt := Expiry.never, lastAccessedAt := 3 })],
    maxSize := 2, hits := 0, misses := 0, evictions := 0 }

/-- A concrete sequence of puts for the capacity bound. -/
def opsW : List (PutOp ℕ) :=
  [{ key := "c", value := 3, ttl := TTL.infinite, now := 7 },
   { key := "d", value := 4, ttl := TTL.finite HOUR, now := 8 }]

/-- C2 witness: the concrete full cache stays within capacity under the put
sequence, and inserting the new key "c" evicts the least-recently-accessed
entry and counts the eviction. -/
theorem C2_capacity_and_lru_witness :
    (applyPuts cacheW opsW).entries.length ≤ cacheW.maxSize ∧
    (cacheW.put "c" 3 TTL.infinite 7).evictions = cacheW.evictions + 1 ∧
    ∃ pre e post,
      cacheW.entries = pre ++ e :: post ∧
      (cacheW.put "c" 3 TTL.infinite 7).entries =
        (pre ++ post) ++ [("c", mkEntry 3 TTL.infinite 7)] ∧
      (∀ q ∈ cacheW.entries, e.2.lastAccessedAt ≤ q.2.lastAccessedAt) ∧
      (∀ q ∈ pre, e.2.lastAccessedAt < q.2.lastAccessedAt) :=
  C2_capacity_and_lru cacheW opsW "c" 3 TTL.infinite 7
    (by decide) (by decide) (by decide) (by decide)

theorem findEntry_removeKey {V : Type} (l : List (String × Entry V)) (k : String) :
    findEntry (removeKey l k) k = none := by
  induction l with
  | nil => rfl
  | cons p rest ih =>
    cases h : (p.1 == k) with
    | true =>
      simp only [removeKey, List.filter_cons, h, Bool.not_true, Bool.false_eq_true,
        if_false]
      exact ih
    | false =>
      simp only [removeKey, List.filter_cons, h] at ih ⊢
      simpa [findEntry, List.find?_cons, h] using ih

/-- C6: a `get` issued strictly after an entry expires returns nothing,
removes the entry and records a miss; a `get` issued strictly before the
expiry returns the stored value and records a hit. -/
theorem C6_get_expiry {V : Type} (c : Cache V) (k : String) (e : Entry V)
    (t now₁ now₂ : ℚ)
    (hfind : findEntry c.entries k = some e) (ht : e.expiresAt = Expiry.time t)
    (hafter : t < now₁) (hbefore : now₂ < t) :
    (c.get k now₁).1 = none ∧
    findEntry ((c.get k now₁).2).entries k = none ∧
    ((c.get k now₁).2).misses = c.misses + 1 ∧
    (c.get k now₂).1 = some e.value ∧
    ((c.get k now₂).2).hits = c.hits + 1 := by
  have hex1 : isExpired now₁ e.expiresAt = true := by
    rw [ht]
    simpa [isExpired] using hafter.le
  have hex2 : isExpired now₂ e.expiresAt = false := by
    rw [ht]
    simpa [isExpired] using hbefore
  refine ⟨?_, ?_, ?_, ?_, ?_⟩ <;>
    simp [Cache.get, hfind, hex1, hex2, findEntry_removeKey]

/-- A concrete one-entry cache whose entry expires at time 10. -/
def cacheG : Cache ℕ :=
  { entries :=
      [("a", { value := 42, storedAt := 0, expiresAt := Expiry.time 10, lastAccessedAt := 0 })],
    maxSize := 5, hits := 0, misses := 0, evictions := 0 }

/-- C6 witness: reading the concrete entry at time 11 misses and removes it,
reading it at time 9 hits and returns 42. -/
theorem C6_get_expiry_witness :
    (cacheG.get "a" 11).1 = none ∧
    findEntry ((cacheG.get "a" 11).2).entries "a" = none ∧
    ((cacheG.get "a" 11).2).misses = cacheG.misses + 1 ∧
    (cacheG.get "a" 9).1 = some 42 ∧
    ((cacheG.get "a" 9).2).hits = cacheG.hits + 1 :=
  C6_get_expiry cacheG "a"
    { value := 42, storedAt := 0, expiresAt := Expiry.time 10, lastAccessedAt := 0 }
    10 11 9 (by decide) rfl (by norm_num) (by norm_num)

/-- C9: `clear()` removes every entry (the size becomes 0) and leaves the
hits, misses and evictions counters unchanged. -/
theorem C9_clear_frame {V : Type} (c : Cache V) :
    (c.clear).entries = [] ∧ (c.clear).entries.length = 0 ∧
    (c.clear).hits = c.hits ∧ (c.clear).misses = c.misses ∧
    (c.clear).evictions = c.evictions :=
  ⟨rfl, rfl, rfl, rfl, rfl⟩

/-- A token of a human-readable message.  The raw transport error codes are
distinguished from plain text so that verbatim leakage of a transport code
into user-visible output is expressible. -/
inductive MsgTok where
  | econnrefused
  | etimedout
  | enotfound
  | plain (s : String)
deriving DecidableEq, Repr

/-- Replace a raw transport error code by its sanitized description (the
replacements observed in the unit tests); leave plain text unchanged. -/
def sanitizeTok : MsgTok → MsgTok
  | MsgTok.econnrefused => MsgTok.plain "Connection refused"
  | MsgTok.etimedout => MsgTok.plain "Connection timed out"
  | MsgTok.enotfound => MsgTok.plain "Service not found"
  | MsgTok.plain s => MsgTok.plain s

/-- Does a token match a known transient transport signature? -/
def isTransientTok : MsgTok → Bool
  | MsgTok.econnrefused => true
  | MsgTok.etimedout => true
  | MsgTok.enotfound => true
  | MsgTok.plain _ => false

/-- Modelled from the spec: the data every typed ApiError carries
(src/errors/ApiError.ts is not among the given sources; the shape follows the
spec's TypedError data model and the unit tests). -/
structure ApiErrorData where
  name : String
  statusCode : ℕ
  service : String
  userMessage : List MsgTok
  helpLinks : List String
  isRetryable : Bool
  retryAfter : Option ℕ
  stack : List MsgTok
deriving DecidableEq, Repr

/-- Modelled from the spec: the RateLimitError constructor — status 429,
retryable, pre-sanitized user message, a rate-limit documentation link. -/
def mkRateLimitError (service : String) (retryAfter : Option ℕ)
    (stack : List MsgTok) : ApiErrorData :=
  { name := "RateLimitError", statusCode := 429, service := service,
    userMessage :=
      match retryAfter with
      | some s =>
        [MsgTok.plain ("Rate limit exceeded. Please retry after " ++ toString s
          ++ " seconds.")]
      | none => [MsgTok.plain "Rate limit exceeded. Please retry in a few seconds."],
    helpLinks := ["https://weather-gov.github.io/api/"],
    isRetryable := true, retryAfter := retryAfter, stack := stack }

/-- Modelled from the spec: the ServiceUnavailableError constructor — status
503, retryable, pre-sanitized user message, a status-page link. -/
def mkServiceUnavailableError (service : String) (stack : List MsgTok) : ApiErrorData :=
  { name := "ServiceUnavailableError", statusCode := 503, service := service,
    userMessage :=
      [MsgTok.plain (service ++ " is temporarily unavailable. Please try again later.")],
    helpLinks :=
      [if service == "NOAA" then "https://www.weather.gov/notification"
       else "https://open-meteo.com/en/docs"],
    isRetryable := true, retryAfter := none, stack := stack }

/-- Modelled from the spec: the InvalidLocationError constructor — status
400, never retryable; the caller-supplied message is sanitized at
construction time. -/
def mkInvalidLocationError (service : String) (userMessage : List MsgTok)
    (stack : List MsgTok) : ApiErrorData :=
  { name := "InvalidLocationError", statusCode := 400, service := service,
    userMessage := userMessage.map sanitizeTok, helpLinks := [],
    isRetryable := false, retryAfter := none, stack := stack }

/-- Modelled from the spec: the DataNotFoundError constructor — status 404,
never retryable; coverage-area help link. -/
def mkDataNotFoundError (service : String) (userMessage : List MsgTok)
    (stack : List MsgTok) : ApiErrorData :=
  { name := "DataNotFoundError", statusCode := 404, service := service,
    userMessage := userMessage.map sanitizeTok,
    helpLinks := ["https://weather-gov.github.io/api/planned-outages"],
    isRetryable := false, retryAfter := none, stack := stack }

/-- A failure value: a typed API error, a local validation error, or an
untyped transport/runtime error carrying only a raw message. -/
inductive WErr where
  | api (e : ApiErrorData)
  | validation (msg : List MsgTok) (vfield : Option String)
  | generic (msg : List MsgTok)
deriving DecidableEq, Repr

/-- Modelled from the spec: ValidationError messages are pre-sanitized at
construction time. -/
def mkValidationError (msg : List MsgTok) (vfield : Option String) : WErr :=
  WErr.validation (msg.map sanitizeTok) vfield

/-- Modelled from the spec: the single retryability predicate — typed errors
expose their flag, untyped errors are retryable exactly when they match a
known transient transport signature, anything else is not retryable. -/
def isRetryableError : WErr → Bool
  | WErr.api e => e.isRetryable
  | WErr.validation _ _ => false
  | WErr.generic msg => msg.any isTransientTok

end WeatherMcp

namespace WeatherMcp

/-- C4: isRetryableError is a pure function of the error variant —
rate-limit and service-unavailable errors are always retryable; invalid
location, not-found and validation errors never are; an untyped error is
retryable exactly when its message carries a known transient transport
signature (connection refused, timeout, name-resolution failure), so
anything unrecognized defaults to non-retryable. -/
theorem C4_isRetryable_classification (service : String) (retryAfter : Option ℕ)
    (um um2 st st2 st3 st4 vmsg gmsg : List MsgTok) (f : Option String) :
    isRetryableError (WErr.api (mkRateLimitError service retryAfter st)) = true ∧
    isRetryableError (WErr.api (mkServiceUnavailableError service st2)) = true ∧
    isRetryableError (WErr.api (mkInvalidLocationError service um st3)) = false ∧
    isRetryableError (WErr.api (mkDataNotFoundError service um2 st4)) = false ∧
    isRetryableError (WErr.validation vmsg f) = false ∧
    (isRetryableError (WErr.generic gmsg) = true ↔
      MsgTok.econnrefused ∈ gmsg ∨ MsgTok.etimedout ∈ gmsg ∨
        MsgTok.enotfound ∈ gmsg) := by
  refine ⟨rfl, rfl, rfl, rfl, rfl, ?_⟩
  simp only [isRetryableError, List.any_eq_true]
  constructor
  · rintro ⟨t, ht, htr⟩
    cases t with
    | econnrefused => exact Or.inl ht
    | etimedout => exact Or.inr (Or.inl ht)
    | enotfound => exact Or.inr (Or.inr ht)
    | plain s => simp [isTransientTok] at htr
  · rintro (h | h | h)
    · exact ⟨MsgTok.econnrefused, h, rfl⟩
    · exact ⟨MsgTok.etimedout, h, rfl⟩
    · exact ⟨MsgTok.enotfound, h, rfl⟩

/-- Render help links under a "For more information" header, nothing when
there are none. -/
def renderHelpLinks : List String → List MsgTok
  | [] => []
  | links => MsgTok.plain "For more information:" :: links.map MsgTok.plain

/-- Modelled from the spec: the user-facing error formatter.  Typed errors
render their pre-sanitized user message with service attribution and help
links; validation errors render their message; untyped errors have known
transport signatures replaced by sanitized descriptions.  The stack field is
never consulted. -/
def formatErrorForUser : WErr → List MsgTok
  | WErr.api e =>
      MsgTok.plain (e.service ++ " API Error: ") ::
        (e.userMessage ++ renderHelpLinks e.helpLinks)
  | WErr.validation msg _ => MsgTok.plain "Validation Error: " :: msg
  | WErr.generic msg => MsgTok.plain "Error: " :: msg.map sanitizeTok

/-- No raw transport error code occurs verbatim in the message. -/
def noRawTransportTok (l : List MsgTok) : Prop :=
  MsgTok.econnrefused ∉ l ∧ MsgTok.etimedout ∉ l ∧ MsgTok.enotfound ∉ l

theorem noRawTransportTok_nil : noRawTransportTok ([] : List MsgTok) := by
  refine ⟨?_, ?_, ?_⟩ <;> simp

theorem noRawTransportTok_cons_plain (s : String) (l : List MsgTok)
    (h : noRawTransportTok l) : noRawTransportTok (MsgTok.plain s :: l) := by
  obtain ⟨h1, h2, h3⟩ := h
  refine ⟨?_, ?_, ?_⟩ <;> simp [List.mem_cons, h1, h2, h3]

theorem noRawTransportTok_append (l1 l2 : List MsgTok)
    (h1 : noRawTransportTok l1) (h2 : noRawTransportTok l2) :
    noRawTransportTok (l1 ++ l2) := by
  obtain ⟨a1, a2, a3⟩ := h1
  obtain ⟨b1, b2, b3⟩ := h2
  refine ⟨?_, ?_, ?_⟩ <;> simp [List.mem_append, a1, a2, a3, b1, b2, b3]

theorem noRawTransportTok_map_plain (ls : List String) :
    noRawTransportTok (ls.map MsgTok.plain) := by
  refine ⟨?_, ?_, ?_⟩ <;> intro h <;>
    obtain ⟨s, -, hs⟩ := List.mem_map.mp h <;> exact MsgTok.noConfusion hs

theorem noRawTransportTok_map_sanitize (l : List MsgTok) :
    noRawTransportTok (l.map sanitizeTok) := by
  refine ⟨?_, ?_, ?_⟩ <;> intro h <;>
    obtain ⟨t, -, hs⟩ := List.mem_map.mp h <;>
    cases t <;> simp [sanitizeTok] at hs

theorem noRawTransportTok_renderHelpLinks (links : List String) :
    noRawTransportTok (renderHelpLinks links) := by
  cases links with
  | nil => exact noRawTransportTok_nil
  | cons a ls =>
    exact noRawTransportTok_cons_plain _ _ (noRawTransportTok_map_plain (a :: ls))

end WeatherMcp

namespace WeatherMcp

/-- C8: for every error produced by the typed constructors, by the
validation-error constructor or raised untyped, the user-facing formatted
message carries no raw transport error code (ECONNREFUSED, ETIMEDOUT,
ENOTFOUND) verbatim; the formatter never reads the stack; and the
rate-limit, service-unavailable and not-found categories carry at least one
actionable help reference. -/
theorem C8_sanitized_user_errors (service : String) (retryAfter : Option ℕ)
    (um um2 st st2 st3 st4 vmsg gmsg : List MsgTok) (f : Option String) :
    noRawTransportTok
      (formatErrorForUser (WErr.api (mkRateLimitError service retryAfter st))) ∧
    noRawTransportTok
      (formatErrorForUser (WErr.api (mkServiceUnavailableError service st2))) ∧
    noRawTransportTok
      (formatErrorForUser (WErr.api (mkInvalidLocationError service um st3))) ∧
    noRawTransportTok
      (formatErrorForUser (WErr.api (mkDataNotFoundError service um2 st4))) ∧
    noRawTransportTok (formatErrorForUser (mkValidationError vmsg f)) ∧
    noRawTransportTok (formatErrorForUser (WErr.generic gmsg)) ∧
    (∀ e : ApiErrorData, ∀ st5 : List MsgTok,
      formatErrorForUser (WErr.api { e with stack := st5 }) =
        formatErrorForUser (WErr.api e)) ∧
    (mkRateLimitError service retryAfter st).helpLinks ≠ [] ∧
    (mkServiceUnavailableError service st2).helpLinks ≠ [] ∧
    (mkDataNotFoundError service um2 st4).helpLinks ≠ [] := by
  have hdr : ∀ (s : String) (msg : List MsgTok) (links : List String),
      noRawTransportTok msg →
      noRawTransportTok (MsgTok.plain s :: (msg ++ renderHelpLinks links)) :=
    fun s msg links hm =>
      noRawTransportTok_cons_plain s _
        (noRawTransportTok_append _ _ hm (noRawTransportTok_renderHelpLinks links))
  refine ⟨?_, ?_, ?_, ?_, ?_, ?_, fun e st5 => rfl, ?_, ?_, ?_⟩
  · refine hdr _ _ _ ?_
    cases retryAfter <;>
      exact noRawTransportTok_cons_plain _ _ noRawTransportTok_nil
  · exact hdr _ _ _ (noRawTransportTok_cons_plain _ _ noRawTransportTok_nil)
  · exact hdr _ _ _ (noRawTransportTok_map_sanitize um)
  · exact hdr _ _ _ (noRawTransportTok_map_sanitize um2)
  · exact noRawTransportTok_cons_plain _ _ (noRawTransportTok_map_sanitize vmsg)
  · exact noRawTransportTok_cons_plain _ _ (noRawTransportTok_map_sanitize gmsg)
  · intro h
    exact List.noConfusion h
  · intro h
    exact List.noConfusion h
  · intro h
    exact List.noConfusion h

/-- Modelled from the spec: the retry/backoff engine state machine, fuelled
by the remaining retry budget.  `retryFrom op attempt remaining` runs
`op attempt`; on success or a non-retryable failure it stops, on a retryable
failure with budget left it moves to attempt + 1.  The second component is
the number of attempts made. -/
def retryFrom {α : Type} (op : ℕ → Except WErr α) (attempt : ℕ) :
    ℕ → Except WErr α × ℕ
  | 0 => (op attempt, 1)
  | remaining + 1 =>
    match op attempt with
    | Except.ok v => (Except.ok v, 1)
    | Except.error e =>
      if isRetryableError e then
        ((retryFrom op (attempt + 1) remaining).1,
         (retryFrom op (attempt + 1) remaining).2 + 1)
      else (Except.error e, 1)

/-- Modelled from the spec: `fetch` runs the operation with up to
`maxRetries` retries after the initial attempt. -/
def fetchWithRetry {α : Type} (op : ℕ → Except WErr α) (maxRetries : ℕ) :
    Except WErr α × ℕ :=
  retryFrom op 0 maxRetries

theorem retryFrom_all_retryable {α : Type} (op : ℕ → Except WErr α)
    (err : ℕ → WErr) (hfail : ∀ n, op n = Except.error (err n))
    (hretry : ∀ n, isRetryableError (err n) = true) :
    ∀ remaining attempt,
      retryFrom op attempt remaining =
        (Except.error (err (attempt + remaining)), remaining + 1) := by
  intro remaining
  induction remaining with
  | zero =>
    intro a
    simp [retryFrom, hfail a]
  | succ r ih =>
    intro a
    simp only [retryFrom, hfail a, hretry a, if_true, ih (a + 1)]
    have : a + 1 + r = a + (r + 1) := by omega
    rw [this]

end WeatherMcp

namespace WeatherMcp

/-- C3: over an operation that permanently fails with a non-retryable error,
fetch makes exactly one attempt; over an operation that permanently fails
with retryable errors it makes exactly maxRetries + 1 attempts; in both
cases the last-seen error is propagated unchanged. -/
theorem C3_retry_attempts {α : Type} (op1 op2 : ℕ → Except WErr α)
    (maxRetries : ℕ) (e1 e2 : ℕ → WErr)
    (h1 : ∀ n, op1 n = Except.error (e1 n))
    (hr1 : ∀ n, isRetryableError (e1 n) = false)
    (h2 : ∀ n, op2 n = Except.error (e2 n))
    (hr2 : ∀ n, isRetryableError (e2 n) = true) :
    fetchWithRetry op1 maxRetries = (Except.error (e1 0), 1) ∧
    fetchWithRetry op2 maxRetries = (Except.error (e2 maxRetries), maxRetries + 1) := by
  constructor
  · cases maxRetries with
    | zero => simp [fetchWithRetry, retryFrom, h1 0]
    | succ r => simp [fetchWithRetry, retryFrom, h1 0, hr1 0]
  · have := retryFrom_all_retryable op2 e2 h2 hr2 maxRetries 0
    rw [fetchWithRetry, this, Nat.zero_add]

/-- A concrete non-retryable typed error: 404 data-not-found. -/
def errNF : WErr :=
  WErr.api (mkDataNotFoundError "NOAA" [MsgTok.plain "Station not found"] [])

/-- A concrete retryable typed error: 429 rate-limited. -/
def errRL : WErr := WErr.api (mkRateLimitError "NOAA" none [])

/-- C3 witness: a permanently 404-failing operation is attempted once; a
permanently rate-limited operation is attempted maxRetries + 1 = 4 times,
and the rate-limit error itself is what surfaces. -/
theorem C3_retry_attempts_witness :
    fetchWithRetry (fun _ => (Except.error errNF : Except WErr ℕ)) 3 =
      (Except.error errNF, 1) ∧
    fetchWithRetry (fun _ => (Except.error errRL : Except WErr ℕ)) 3 =
      (Except.error errRL, 4) :=
  C3_retry_attempts (fun _ => Except.error errNF) (fun _ => Except.error errRL) 3
    (fun _ => errNF) (fun _ => errRL)
    (fun _ => rfl) (fun _ => rfl) (fun _ => rfl) (fun _ => rfl)

/-- Modelled from the spec and unit tests: the deterministic exponential
backoff delay for retry attempt n, in milliseconds (2 to the n seconds). -/
def backoffBaseDelay (n : ℕ) : ℚ := 2 ^ n * 1000

/-- Modelled from the spec: the jitter factor 0.5 + u * 0.5 for a uniform
draw u from the unit interval. -/
def jitterFactor (u : ℚ) : ℚ := 1 / 2 + u * (1 / 2)

/-- The jittered backoff delay for retry attempt n and random draw u. -/
def jitteredDelay (n : ℕ) (u : ℚ) : ℚ := backoffBaseDelay n * jitterFactor u

/-- C5: for every retry attempt n and every random draw, the jittered delay
lies in the closed interval from 0.5 * 2 ^ n to 1.0 * 2 ^ n base units
(here in milliseconds with a 1000 ms base unit), and jitter never increases
the delay above the deterministic exponential value. -/
theorem C5_jitter_bound (n : ℕ) (u : ℚ) (h0 : 0 ≤ u) (h1 : u ≤ 1) :
    (1 / 2) * (2 ^ n * 1000) ≤ jitteredDelay n u ∧
    jitteredDelay n u ≤ 1 * (2 ^ n * 1000) ∧
    jitteredDelay n u ≤ backoffBaseDelay n := by
  have hb : (0 : ℚ) < 2 ^ n * 1000 := by positivity
  have hf1 : 1 / 2 ≤ jitterFactor u := by
    unfold jitterFactor
    nlinarith
  have hf2 : jitterFactor u ≤ 1 := by
    unfold jitterFactor
    nlinarith
  unfold jitteredDelay backoffBaseDelay
  refine ⟨?_, ?_, ?_⟩ <;> nlinarith

/-- C5 witness: the bounds hold at attempt 3 with draw one half. -/
theorem C5_jitter_bound_witness :
    (1 / 2) * (2 ^ 3 * 1000) ≤ jitteredDelay 3 (1 / 2) ∧
    jitteredDelay 3 (1 / 2) ≤ 1 * (2 ^ 3 * 1000) ∧
    jitteredDelay 3 (1 / 2) ≤ backoffBaseDelay 3 :=
  C5_jitter_bound 3 (1 / 2) (by norm_num) (by norm_num)

/-- A JavaScript number as seen by coordinate validation: NaN, a signed
infinity, or a finite value. -/
inductive JSNum where
  | nan
  | posInf
  | negInf
  | val (q : ℚ)
deriving DecidableEq, Repr

/-- Number.isFinite: true exactly on finite values. -/
def isFiniteNum : JSNum → Bool
  | JSNum.val _ => true
  | _ => false

/-- A coordinate-validation failure naming the offending input field, the
offending value and the valid range. -/
structure CoordError where
  cfield : String
  cvalue : JSNum
  lo : ℚ
  hi : ℚ
deriving DecidableEq, Repr

/-- Modelled from the spec: latitude must be a finite number between -90 and
90; the error names the offending value and the valid range. -/
def validateLatitude (lat : JSNum) : Except CoordError ℚ :=
  match lat with
  | JSNum.val q =>
    if q < -90 ∨ 90 < q then Except.error ⟨"latitude", JSNum.val q, -90, 90⟩
    else Except.ok q
  | other => Except.error ⟨"latitude", other, -90, 90⟩

/-- Modelled from the spec: longitude must be a finite number between -180
and 180; the error names the offending value and the valid range. -/
def validateLongitude (lon : JSNum) : Except CoordError ℚ :=
  match lon with
  | JSNum.val q =>
    if q < -180 ∨ 180 < q then Except.error ⟨"longitude", JSNum.val q, -180, 180⟩
    else Except.ok q
  | other => Except.error ⟨"longitude", other, -180, 180⟩

/-- Modelled from the spec: getHistoricalWeather validates its coordinates
first and only then issues the network request; the second component counts
network requests attempted. -/
def getHistoricalWeatherCall (lat lon : JSNum) : Except CoordError (ℚ × ℚ) × ℕ :=
  match validateLatitude lat with
  | Except.error e => (Except.error e, 0)
  | Except.ok la =>
    match validateLongitude lon with
    | Except.error e => (Except.error e, 0)
    | Except.ok lo => (Except.ok (la, lo), 1)

/-- A latitude passes validation exactly when it is a finite number between
-90 and 90. -/
def validLat : JSNum → Prop
  | JSNum.val q => -90 ≤ q ∧ q ≤ 90
  | _ => False

/-- A longitude passes validation exactly when it is a finite number between
-180 and 180. -/
def validLon : JSNum → Prop
  | JSNum.val q => -180 ≤ q ∧ q ≤ 180
  | _ => False

instance (n : JSNum) : Decidable (validLat n) := by
  cases n <;> simp only [validLat] <;> infer_instance

instance (n : JSNum) : Decidable (validLon n) := by
  cases n <;> simp only [validLon] <;> infer_instance

end WeatherMcp

namespace WeatherMcp

/-- C10: getHistoricalWeather rejects a latitude outside -90..90 or a
longitude outside -180..180 (including NaN and the infinities) with a
validation error naming the offending value and the valid range, before any
network request is attempted, while the boundary values -90, 90, -180, 180
are accepted. -/
theorem C10_coordinate_validation (lat lon lon2 : JSNum) (la : ℚ)
    (hlat : ¬ validLat lat) (hla : -90 ≤ la ∧ la ≤ 90) (hlon : ¬ validLon lon2) :
    (∃ e, getHistoricalWeatherCall lat lon = (Except.error e, 0) ∧
       e.cfield = "latitude" ∧ e.cvalue = lat ∧ e.lo = -90 ∧ e.hi = 90) ∧
    (∃ e, getHistoricalWeatherCall (JSNum.val la) lon2 = (Except.error e, 0) ∧
       e.cfield = "longitude" ∧ e.cvalue = lon2 ∧ e.lo = -180 ∧ e.hi = 180) ∧
    getHistoricalWeatherCall (JSNum.val 90) (JSNum.val 180) =
      (Except.ok (90, 180), 1) ∧
    getHistoricalWeatherCall (JSNum.val (-90)) (JSNum.val (-180)) =
      (Except.ok (-90, -180), 1) := by
  have hvla : validateLatitude (JSNum.val la) = Except.ok la := by
    simp only [validateLatitude]
    rw [if_neg]
    push_neg
    exact hla
  refine ⟨?_, ?_, by rfl, by rfl⟩
  · cases lat with
    | val q =>
      have hq : q < -90 ∨ 90 < q := by
        simp only [validLat, not_and_or, not_le] at hlat
        exact hlat.imp id id
      exact ⟨⟨"latitude", JSNum.val q, -90, 90⟩,
        by simp [getHistoricalWeatherCall, validateLatitude, if_pos hq],
        rfl, rfl, rfl, rfl⟩
    | nan =>
      exact ⟨⟨"latitude", JSNum.nan, -90, 90⟩, rfl, rfl, rfl, rfl, rfl⟩
    | posInf =>
      exact ⟨⟨"latitude", JSNum.posInf, -90, 90⟩, rfl, rfl, rfl, rfl, rfl⟩
    | negInf =>
      exact ⟨⟨"latitude", JSNum.negInf, -90, 90⟩, rfl, rfl, rfl, rfl, rfl⟩
  · cases lon2 with
    | val q =>
      have hq : q < -180 ∨ 180 < q := by
        simp only [validLon, not_and_or, not_le] at hlon
        exact hlon.imp id id
      exact ⟨⟨"longitude", JSNum.val q, -180, 180⟩,
        by simp [getHistoricalWeatherCall, hvla, validateLongitude, if_pos hq],
        rfl, rfl, rfl, rfl⟩
    | nan =>
      exact ⟨⟨"longitude", JSNum.nan, -180, 180⟩,
        by simp [getHistoricalWeatherCall, hvla, validateLongitude],
        rfl, rfl, rfl, rfl⟩
    | posInf =>
      exact ⟨⟨"longitude", JSNum.posInf, -180, 180⟩,
        by simp [getHistoricalWeatherCall, hvla, validateLongitude],
        rfl, rfl, rfl, rfl⟩
    | negInf =>
      exact ⟨⟨"longitude", JSNum.negInf, -180, 180⟩,
        by simp [getHistoricalWeatherCall, hvla, validateLongitude],
        rfl, rfl, rfl, rfl⟩

/-- C10 witness: latitude 91 is rejected with the latitude range error and
no network attempt; longitude 181 likewise; the boundary coordinates pass. -/
theorem C10_coordinate_validation_witness :
    (∃ e, getHistoricalWeatherCall (JSNum.val 91) (JSNum.val 0) =
        (Except.error e, 0) ∧
       e.cfield = "latitude" ∧ e.cvalue = JSNum.val 91 ∧ e.lo = -90 ∧ e.hi = 90) ∧
    (∃ e, getHistoricalWeatherCall (JSNum.val 37) (JSNum.val 181) =
        (Except.error e, 0) ∧
       e.cfield = "longitude" ∧ e.cvalue = JSNum.val 181 ∧
       e.lo = -180 ∧ e.hi = 180) ∧
    getHistoricalWeatherCall (JSNum.val 90) (JSNum.val 180) =
      (Except.ok (90, 180), 1) ∧
    getHistoricalWeatherCall (JSNum.val (-90)) (JSNum.val (-180)) =
      (Except.ok (-90, -180), 1) :=
  C10_coordinate_validation (JSNum.val 91) (JSNum.val 0) (JSNum.val 181) 37
    (by decide) (by norm_num) (by decide)

end WeatherMcp
